import Mathlib

/-!
Verification of the game-selection pipeline of the steam-idler repository.

The Python sources are shallowly embedded: each Python function that a
claim is about becomes a Lean definition that mirrors its control flow,
with network and file effects abstracted as explicit oracle parameters
(a collaborator call becomes a function argument; an operation that may
raise becomes `Except`).  Game ids are Python ints, embedded as `Int`.
-/

namespace SteamIdler

/-- A Steam game id (Python `int`). -/
abbrev GameId := Int

/-! ## Settings (config/settings.py)

Only the fields that `GameManager.get_games_to_idle` reads are embedded.
Pydantic validates `max_games_to_idle` with `ge=1, le=32` and `max_checks`
with `ge=1, le=10000`, so both are naturals (`max_games_to_idle ≥ 1`).
`steam_api_key` presence is what the code branches on, hence a `Bool`. -/

structure GSettings where
  game_app_ids : List GameId
  use_owned_games : Bool
  filter_trading_cards : Bool
  filter_completed_card_drops : Bool
  exclude_app_ids : List GameId
  max_games_to_idle : Nat
  has_steam_api_key : Bool
  deriving Repr, DecidableEq

/-! ## GameManager._filter_completed_card_drops (steam/games.py 245-301)

The badge service call may raise `SteamAPITimeoutError`, `BadgeServiceError`
(both are caught, falling through to scraping) or anything else (which the
code does not catch and therefore propagates).  The scraping call's failures
are caught by a bare `except Exception`. -/

/-- Outcome kinds of `BadgeService.filter_games_with_remaining_cards` as seen
by the orchestrator: the two caught exception classes, or an uncaught one. -/
inductive BadgeErr where
  | timeout
  | service
  | uncaught
  deriving Repr, DecidableEq

/-- Embedding of `GameManager._filter_completed_card_drops`.  `badgeRes` is
the outcome of the badge-service call, `scrapeRes` the outcome of the
web-scraping call (its exceptions are all caught, so the error payload is
irrelevant).  The result is `Except` because an uncaught badge-service
exception propagates out of the Python method. -/
def filter_completed_card_drops (games : List GameId) (steamIdPresent : Bool)
    (badgeServicePresent : Bool) (hasApiKey : Bool)
    (badgeRes : Except BadgeErr (List GameId))
    (scrapeRes : Except Unit (List GameId)) : Except BadgeErr (List GameId) :=
  if games = [] then .ok games
  else if !steamIdPresent then .ok games
  else
    let scrapeStep : Except BadgeErr (List GameId) :=
      match scrapeRes with
      | .ok filtered => .ok filtered
      | .error _ => .ok games
    if badgeServicePresent && hasApiKey then
      match badgeRes with
      | .ok filtered => .ok filtered
      | .error .timeout => scrapeStep
      | .error .service => scrapeStep
      | .error .uncaught => .error .uncaught
    else scrapeStep

/-! ## GameManager.get_games_to_idle (steam/games.py 119-236)

Effects abstracted as parameters:
`ownedGames` is the list produced by `get_owned_games` (step 1; only used
when `use_owned_games` is set — `get_owned_games` itself already falls back
to `game_app_ids` on failure, so it always yields a list);
`tcFilter l n` is `trading_card_detector.filter_games_with_trading_cards`
on list `l` with `max_games = n` (its `max_checks` / `skip_failures`
arguments are fixed by the settings and folded into the oracle);
`dropFilter` is `_filter_completed_card_drops` on the card-filtered list
(total, i.e. restricted to the runs where that call returns). -/

/-- Step 1: the source list (`all_games`). -/
def all_games_of (s : GSettings) (ownedGames : List GameId) : List GameId :=
  if s.use_owned_games then ownedGames else s.game_app_ids

/-- Step 2: reward filtering with the padded target (`games_with_cards`). -/
def games_with_cards_of (s : GSettings) (ownedGames : List GameId)
    (tcFilter : List GameId → Nat → List GameId) : List GameId :=
  let all_games := all_games_of s ownedGames
  if s.filter_trading_cards then
    let padded_target :=
      if s.filter_completed_card_drops then
        min (s.max_games_to_idle + max 5 (s.max_games_to_idle / 2))
          all_games.length
      else s.max_games_to_idle
    tcFilter all_games padded_target
  else all_games

/-- Step 3: quota filtering (`games_with_drops` before exclusions). -/
def games_with_drops_of (s : GSettings) (ownedGames : List GameId)
    (tcFilter : List GameId → Nat → List GameId)
    (dropFilter : List GameId → List GameId) (steamIdPresent : Bool) :
    List GameId :=
  let games_with_cards := games_with_cards_of s ownedGames tcFilter
  if s.filter_completed_card_drops && steamIdPresent then
    dropFilter games_with_cards
  else games_with_cards

/-- Step 4: user exclusions (the Python code rebinds `games_with_drops`). -/
def candidates_of (s : GSettings) (ownedGames : List GameId)
    (tcFilter : List GameId → Nat → List GameId)
    (dropFilter : List GameId → List GameId) (steamIdPresent : Bool) :
    List GameId :=
  let games_with_drops :=
    games_with_drops_of s ownedGames tcFilter dropFilter steamIdPresent
  if s.exclude_app_ids ≠ [] then
    games_with_drops.filter (fun gid => gid ∉ s.exclude_app_ids)
  else games_with_drops

/-- Embedding of `GameManager.get_games_to_idle` (steps 5-6 inline: the
truncation, the `final_games` emptiness checks and the fallback returns). -/
def get_games_to_idle (s : GSettings) (ownedGames : List GameId)
    (tcFilter : List GameId → Nat → List GameId)
    (dropFilter : List GameId → List GameId) (steamIdPresent : Bool) :
    List GameId :=
  let games_with_cards := games_with_cards_of s ownedGames tcFilter
  let games_with_drops :=
    candidates_of s ownedGames tcFilter dropFilter steamIdPresent
  let final_games := games_with_drops.take s.max_games_to_idle
  if final_games = [] then
    let fallback_games :=
      if s.filter_completed_card_drops &&
          games_with_drops.length == games_with_cards.length then
        games_with_cards.take s.max_games_to_idle
      else []
    if fallback_games ≠ [] then fallback_games
    else if games_with_drops.length = 0 then []
    else s.game_app_ids.take s.max_games_to_idle
  else final_games

/-! ## Python value scraps needed by badges.py

`BadgeService._fetch_cards_remaining` reads JSON fields with `.get`,
truthiness tests and `int(...)` conversions; this fragment of Python value
semantics is embedded for the field values that matter there. -/

/-- A JSON/Python field value as badges.py inspects it: an int, a string,
or `None` (other shapes behave like an unparseable value). -/
inductive PyVal where
  | vint : Int → PyVal
  | vstr : String → PyVal
  | vnone : PyVal
  deriving Repr, DecidableEq

/-- Python truthiness (`if not app_id`) on the embedded values. -/
def py_truthy : PyVal → Bool
  | .vint n => decide (n ≠ 0)
  | .vstr s => decide (s ≠ "")
  | .vnone => false

/-- All-digit character runs as a number, for `int(str)`. -/
def digits_val (l : List Char) : Option Nat :=
  if l ≠ [] ∧ l.all Char.isDigit then
    some (l.foldl (fun n c => n * 10 + (c.toNat - 48)) 0)
  else none

/-- Python `int(s)` on a string: surrounding whitespace stripped, optional
sign, then decimal digits; anything else raises `ValueError`. -/
def str_to_int (s : String) : Option Int :=
  let cs := ((s.data.dropWhile Char.isWhitespace).reverse.dropWhile
    Char.isWhitespace).reverse
  match cs with
  | '+' :: rest => (digits_val rest).map Int.ofNat
  | '-' :: rest => (digits_val rest).map (fun n => -(Int.ofNat n))
  | _ => (digits_val cs).map Int.ofNat

/-- Python `int(x)`: identity on ints, string parsing on strings, and a
`TypeError` (`none`) on `None`. -/
def py_to_int : PyVal → Option Int
  | .vint n => some n
  | .vstr s => str_to_int s
  | .vnone => none

/-- Python `x != 0` as used on the `border_color` field: non-int values
compare unequal to `0`. -/
def py_ne_zero : PyVal → Bool
  | .vint n => decide (n ≠ 0)
  | .vstr _ => true
  | .vnone => true

/-! ## BadgeService (steam/badges.py) -/

/-- One entry of the `badges` array of the GetBadges payload, restricted to
the fields `_fetch_cards_remaining` reads; `none` means the key is absent. -/
structure Badge where
  appid : Option PyVal
  border_color : Option PyVal
  cards_remaining : Option PyVal
  deriving Repr, DecidableEq

/-- Python-dict lookup `d.get(k)` on an association list with unique keys. -/
def dict_get (d : List (Int × Int)) (k : Int) : Option Int :=
  (d.find? (fun p => p.1 == k)).map Prod.snd

/-- Python-dict assignment `d[k] = v`: overwrite in place, or append. -/
def dict_set (d : List (Int × Int)) (k v : Int) : List (Int × Int) :=
  if d.any (fun p => p.1 == k) then
    d.map (fun p => if p.1 == k then (k, v) else p)
  else d ++ [(k, v)]

/-- The per-badge body of the loop in `_fetch_cards_remaining` (badges.py
113-136): skip on falsy/unparseable `appid`, skip on non-zero
`border_color`, default a missing `cards_remaining` to `0`, skip when it
does not parse as an int. -/
def badge_entry (b : Badge) : Option (Int × Int) :=
  let app_id := b.appid.getD .vnone
  if !py_truthy app_id then none
  else
    match py_to_int app_id with
    | none => none
    | some app_id_int =>
      let border_color := b.border_color.getD (.vint 0)
      if py_ne_zero border_color then none
      else
        let remaining := b.cards_remaining.getD (.vint 0)
        match py_to_int remaining with
        | none => none
        | some remaining_int => some (app_id_int, remaining_int)

/-- One iteration of the badge loop: record the entry, or keep the
dictionary unchanged on a skipped badge. -/
def fetch_step (d : List (Int × Int)) (b : Badge) : List (Int × Int) :=
  match badge_entry b with
  | some kv => dict_set d kv.1 kv.2
  | none => d

/-- The dictionary built by `BadgeService._fetch_cards_remaining` from a
parsed badge list. -/
def fetch_cards_remaining (badges : List Badge) : List (Int × Int) :=
  badges.foldl fetch_step []

/-- Embedding of `BadgeService.filter_games_with_remaining_cards` (badges.py
52-78) given the fetched per-game remaining-count dictionary. -/
def filter_games_with_remaining_cards (cards_remaining : List (Int × Int)) :
    List GameId → List GameId
  | [] => []
  | app_id :: rest =>
    match dict_get cards_remaining app_id with
    | none =>
        app_id :: filter_games_with_remaining_cards cards_remaining rest
    | some remaining =>
        if remaining > 0 then
          app_id :: filter_games_with_remaining_cards cards_remaining rest
        else filter_games_with_remaining_cards cards_remaining rest

/-! ## TradingCardDetector.filter_games_with_trading_cards
(steam/trading_cards.py 108-166)

`has_trading_cards` is abstracted as a per-id oracle covering cache hits
and network calls alike; its outcome is a boolean or one of the exception
kinds the loop distinguishes.  The loop counter `checks` is incremented
only after a call that neither raised nor triggered the `max_games`
break.  The embedding additionally counts, purely as observation,
the total number of per-id resolution attempts (`att`) and the number of
attempts that completed without raising (`satt`). -/

/-- Outcome of one `has_trading_cards` call as the loop sees it. -/
inductive TCOut where
  | yes
  | no
  | detErr
  | timeoutErr
  | otherErr
  | interrupt
  deriving Repr, DecidableEq

/-- The scan loop of `filter_games_with_trading_cards`, carrying the
accumulated result, the `checks` counter and the two attempt counters.
Returns (collected ids, total attempts, non-raising attempts). -/
def tc_loop (check : GameId → TCOut) (maxGames : Nat)
    (maxChecks : Option Nat) :
    List GameId → List GameId → Nat → Nat → Nat →
      (List GameId × Nat × Nat)
  | [], acc, _, att, satt => (acc, att, satt)
  | g :: rest, acc, checks, att, satt =>
    match check g with
    | .interrupt => (acc, att + 1, satt)
    | .detErr => tc_loop check maxGames maxChecks rest acc checks
        (att + 1) satt
    | .timeoutErr => tc_loop check maxGames maxChecks rest acc checks
        (att + 1) satt
    | .otherErr => tc_loop check maxGames maxChecks rest acc checks
        (att + 1) satt
    | .yes =>
      let acc' := acc ++ [g]
      if maxGames ≤ acc'.length then (acc', att + 1, satt + 1)
      else
        match maxChecks with
        | some k =>
          if k ≤ checks + 1 then (acc', att + 1, satt + 1)
          else tc_loop check maxGames maxChecks rest acc' (checks + 1)
              (att + 1) (satt + 1)
        | none => tc_loop check maxGames maxChecks rest acc' (checks + 1)
            (att + 1) (satt + 1)
    | .no =>
      match maxChecks with
      | some k =>
        if k ≤ checks + 1 then (acc, att + 1, satt + 1)
        else tc_loop check maxGames maxChecks rest acc (checks + 1)
            (att + 1) (satt + 1)
      | none => tc_loop check maxGames maxChecks rest acc (checks + 1)
          (att + 1) (satt + 1)

/-- Embedding of `TradingCardDetector.filter_games_with_trading_cards`:
the scan followed by the final truncation to `max_games`. -/
def filter_games_with_trading_cards (check : GameId → TCOut)
    (game_ids : List GameId) (maxGames : Nat) (maxChecks : Option Nat) :
    List GameId :=
  ((tc_loop check maxGames maxChecks game_ids [] 0 0 0).1).take maxGames

/-- Total per-id resolution attempts one call performs (cache hits,
network calls and attempts that end in an error alike). -/
def tc_attempts (check : GameId → TCOut) (game_ids : List GameId)
    (maxGames : Nat) (maxChecks : Option Nat) : Nat :=
  (tc_loop check maxGames maxChecks game_ids [] 0 0 0).2.1

/-- Per-id resolution attempts that completed without raising. -/
def tc_success_attempts (check : GameId → TCOut) (game_ids : List GameId)
    (maxGames : Nat) (maxChecks : Option Nat) : Nat :=
  (tc_loop check maxGames maxChecks game_ids [] 0 0 0).2.2

/-! ## TradingCardDetector cache (steam/trading_cards.py 197-232)

`_cache_data` is a Python dict mapping app id to `(has_cards, ts)`;
timestamps are `time.time()` floats, embedded as rationals.  The persisted
file is the JSON object `{str(app_id): {"has_cards": b, "ts": ts}}`; in the
embedding a well-formed file carries the typed entries directly (the
str/int key round-trip is exact), and `bad` stands for a file on which
`json.load` or the entry loop fails. -/

/-- The in-memory `_cache_data` dict: app id ↦ (has_cards, timestamp). -/
abbrev CacheStore := List (Int × Bool × ℚ)

/-- Python-dict assignment for the cache store. -/
def cache_set (d : CacheStore) (k : Int) (v : Bool × ℚ) : CacheStore :=
  if d.any (fun p => p.1 == k) then
    d.map (fun p => if p.1 == k then (k, v.1, v.2) else p)
  else d ++ [(k, v.1, v.2)]

/-- Python-dict lookup for the cache store. -/
def cache_get (d : CacheStore) (k : Int) : Option (Bool × ℚ) :=
  (d.find? (fun p => p.1 == k)).map Prod.snd

/-- Embedding of `TradingCardDetector._remember` restricted to
`_cache_data` (the `_cache` dict holds the same booleans). -/
def remember (store : CacheStore) (app_id : Int) (has_cards : Bool)
    (ts : ℚ) : CacheStore :=
  cache_set store app_id (has_cards, ts)

/-- The persisted cache file: present and parseable, or garbage. -/
inductive CacheFile where
  | good : CacheStore → CacheFile
  | bad : CacheFile

/-- Embedding of `TradingCardDetector._save_cache`: serializes the full
in-memory record set (identity on the typed entries). -/
def save_cache (store : CacheStore) : CacheFile :=
  .good store

/-- Embedding of `TradingCardDetector._load_cache`: missing file and
unparseable file both yield the empty store; entries with
`now - ts > ttl_days * 86400` are excluded. -/
def load_cache (file : Option CacheFile) (now : ℚ) (ttl_days : Nat) :
    CacheStore :=
  match file with
  | none => []
  | some .bad => []
  | some (.good raw) =>
      raw.filter (fun e => decide (now - e.2.2 ≤ ((ttl_days * 86400 : Nat) : ℚ)))

/-! ## CardDropChecker.filter_games_with_drops (steam/card_drops.py 203-250)

`has_remaining_drops` is abstracted as a per-id oracle that either returns
a boolean or raises (all exceptions are caught alike by the loop). -/

/-- Embedding of `CardDropChecker.filter_games_with_drops`: keep an id when
its check returns `True` and also when the check raises. -/
def filter_games_with_drops (check : GameId → Except Unit Bool) :
    List GameId → List GameId
  | [] => []
  | app_id :: rest =>
    match check app_id with
    | .ok true => app_id :: filter_games_with_drops check rest
    | .ok false => filter_games_with_drops check rest
    | .error _ => app_id :: filter_games_with_drops check rest

/-! ## CardDropChecker._build_gamecards_url (steam/card_drops.py 30-64)

String processing is embedded on `List Char`.  `strip`/`strip("/")` become
edge-trimming, the anchored case-insensitive domain-removal regex becomes a
case-insensitive literal test at the start of the string, `\d{17}` search
becomes the leftmost 17-digit run, and `str.partition("/")` splits at the
first slash. -/

/-- Python `str.strip(chars)`: trim matching characters from both ends. -/
def strip_chars (p : Char → Bool) (l : List Char) : List Char :=
  ((l.dropWhile p).reverse.dropWhile p).reverse

/-- `steam_id.strip().strip("/")`. -/
def normalize_ref (l : List Char) : List Char :=
  strip_chars (fun c => c == '/') (strip_chars Char.isWhitespace l)

/-- The anchored substitution of `^https?://steamcommunity\.com/` (one
leading occurrence, case-insensitive). -/
def remove_domain (l : List Char) : List Char :=
  let lower := l.map Char.toLower
  let p1 := "https://steamcommunity.com/".data
  let p2 := "http://steamcommunity.com/".data
  if p1.isPrefixOf lower then l.drop p1.length
  else if p2.isPrefixOf lower then l.drop p2.length
  else l

/-- `cleaned_id.startswith(("profiles/", "id/"))` (case-sensitive). -/
def has_path_pfx (l : List Char) : Bool :=
  ("profiles/".data).isPrefixOf l || ("id/".data).isPrefixOf l

/-- `str.partition("/")` restricted to (before, after) the first slash;
when no slash occurs the remainder is empty. -/
def partition_slash : List Char → (List Char × List Char)
  | [] => ([], [])
  | c :: rest =>
    if c = '/' then ([], rest)
    else
      let pr := partition_slash rest
      (c :: pr.1, pr.2)

/-- `re.search(r"\d{17}", s)`: the leftmost run of 17 decimal digits. -/
def find_digit_run : List Char → Option (List Char)
  | [] => none
  | c :: rest =>
    if ((c :: rest).take 17).length = 17 ∧
        ((c :: rest).take 17).all Char.isDigit then
      some ((c :: rest).take 17)
    else find_digit_run rest

/-- Python `str.isdigit()` (ASCII fragment). -/
def py_isdigit (l : List Char) : Bool :=
  !l.isEmpty && l.all Char.isDigit

/-- Embedding of `CardDropChecker._build_gamecards_url`; the `ValueError`
messages become `Except.error` payloads. -/
def build_gamecards_url (steam_id : List Char) (app_id : Nat) :
    Except (List Char) (List Char) :=
  let cleaned0 := normalize_ref steam_id
  if cleaned0 = [] then .error ("Steam ID cannot be empty".data)
  else
    let cleaned := remove_domain cleaned0
    if has_path_pfx cleaned then
      let pr := partition_slash cleaned
      let identifier := strip_chars (fun c => c == '/') pr.2
      if identifier = [] then
        .error ("Steam ID segment cannot be empty".data)
      else
        .ok ("https://steamcommunity.com/".data ++ pr.1 ++ ['/'] ++
          identifier ++ "/gamecards/".data ++ (Nat.repr app_id).data ++
          ['/'])
    else if py_isdigit cleaned && decide (17 ≤ cleaned.length) then
      .ok ("https://steamcommunity.com/profiles/".data ++ cleaned ++
        "/gamecards/".data ++ (Nat.repr app_id).data ++ ['/'])
    else
      match find_digit_run cleaned with
      | some identifier =>
          .ok ("https://steamcommunity.com/profiles/".data ++ identifier ++
            "/gamecards/".data ++ (Nat.repr app_id).data ++ ['/'])
      | none =>
          .ok ("https://steamcommunity.com/id/".data ++ cleaned ++
            "/gamecards/".data ++ (Nat.repr app_id).data ++ ['/'])

end SteamIdler

namespace SteamIdler

/-- C1: every return path of `get_games_to_idle` yields a list of length at
most `max_games_to_idle`, for every configuration, input list and oracle
behaviour. -/
theorem get_games_to_idle_length_le_cap (s : GSettings)
    (ownedGames : List GameId) (tcFilter : List GameId → Nat → List GameId)
    (dropFilter : List GameId → List GameId) (steamIdPresent : Bool) :
    (get_games_to_idle s ownedGames tcFilter dropFilter
        steamIdPresent).length ≤ s.max_games_to_idle := by
  unfold get_games_to_idle
  dsimp only
  repeat' split
  all_goals simp [List.length_take]

/-- C2 counterexample: with a non-empty static list, an empty owned-games
source and quota filtering skipped, the code returns `[]`, while the claim
predicts the static list truncated to the cap (`[220, 300]`). -/
theorem get_games_to_idle_empty_upstream_cex :
    get_games_to_idle
      { game_app_ids := [220, 300], use_owned_games := true,
        filter_trading_cards := false, filter_completed_card_drops := false,
        exclude_app_ids := [], max_games_to_idle := 2,
        has_steam_api_key := true }
      [] (fun l _ => l) (fun l => l) false = [] ∧
    get_games_to_idle
      { game_app_ids := [220, 300], use_owned_games := true,
        filter_trading_cards := false, filter_completed_card_drops := false,
        exclude_app_ids := [], max_games_to_idle := 2,
        has_steam_api_key := true }
      [] (fun l _ => l) (fun l => l) false
      ≠ List.take 2 [(220 : GameId), 300] := by
  constructor
  · rfl
  · decide

/-- C2 (amended): whenever the post-exclusion candidate list is empty — in
particular when the upstream lists were already empty and quota filtering
was skipped, and also when quota filtering authoritatively kept none of a
non-empty candidate set — `get_games_to_idle` returns the empty list; the
static-list fallback is never taken in these cases. -/
theorem get_games_to_idle_empty_candidates (s : GSettings)
    (ownedGames : List GameId) (tcFilter : List GameId → Nat → List GameId)
    (dropFilter : List GameId → List GameId) (steamIdPresent : Bool)
    (h : candidates_of s ownedGames tcFilter dropFilter steamIdPresent = []) :
    get_games_to_idle s ownedGames tcFilter dropFilter steamIdPresent = [] := by
  unfold get_games_to_idle
  dsimp only
  rw [h]
  simp only [List.take_nil, List.length_nil, if_pos rfl]
  by_cases hc : (s.filter_completed_card_drops &&
      0 == (games_with_cards_of s ownedGames tcFilter).length) = true
  · have h2 : (games_with_cards_of s ownedGames tcFilter).length = 0 := by
      have hand := (Bool.and_eq_true _ _).mp hc
      have := hand.2
      rw [Nat.beq_eq_true_eq] at this
      exact this.symm
    have hcards := List.eq_nil_of_length_eq_zero h2
    rw [hcards]
    simp
  · rw [if_neg hc]
    simp

/-- C2 (amended) witness: quota filtering authoritatively kept none of the
non-empty candidates `[220, 300]`, so the result is `[]`. -/
theorem get_games_to_idle_empty_candidates_witness :
    get_games_to_idle
      { game_app_ids := [220, 300], use_owned_games := false,
        filter_trading_cards := false, filter_completed_card_drops := true,
        exclude_app_ids := [], max_games_to_idle := 2,
        has_steam_api_key := true }
      [] (fun l _ => l) (fun _ => []) true = [] :=
  get_games_to_idle_empty_candidates _ [] (fun l _ => l) (fun _ => [])
    true (by decide)

/-- C3: with the badge service configured and an api key present, when the
badge-service filter fails with one of the two caught exception kinds
(`SteamAPITimeoutError` or `BadgeServiceError`), `_filter_completed_card_drops`
equals the scraping fallback's output when that succeeds and the unchanged
input list when the fallback raises; in either case no exception
propagates. -/
theorem filter_completed_card_drops_error_chain (games : List GameId)
    (badgeRes : Except BadgeErr (List GameId))
    (scrapeRes : Except Unit (List GameId)) (hg : games ≠ [])
    (hb : badgeRes = .error .timeout ∨ badgeRes = .error .service) :
    filter_completed_card_drops games true true true badgeRes scrapeRes
      = (match scrapeRes with
          | .ok filtered => .ok filtered
          | .error _ => .ok games) ∧
    ∃ result, filter_completed_card_drops games true true true badgeRes
        scrapeRes = .ok result := by
  unfold filter_completed_card_drops
  rcases hb with hb | hb <;> subst hb <;>
    simp only [if_neg hg, Bool.not_true, Bool.false_eq_true, if_false,
      Bool.and_self, if_true] <;>
    cases scrapeRes <;> simp

/-- C3 witness: badge service times out and the scraping fallback also
raises; the pre-quota list `[10]` is returned unchanged. -/
theorem filter_completed_card_drops_error_chain_witness :
    filter_completed_card_drops [(10 : GameId)] true true true
      (.error .timeout) (.error ()) = .ok [(10 : GameId)] :=
  (filter_completed_card_drops_error_chain [(10 : GameId)]
    (.error .timeout) (.error ()) (by decide) (Or.inl rfl)).1

/-- C4: the scraping filter equals an order-preserving filter whose
predicate keeps an id whenever its per-id check returns `True` or raises;
in particular every id whose check raises is in the output — a failed check
is never the reason an id is absent. -/
theorem filter_games_with_drops_keeps_failed
    (check : GameId → Except Unit Bool) (ids : List GameId) :
    filter_games_with_drops check ids
      = ids.filter (fun a =>
          match check a with
          | .ok b => b
          | .error _ => true) ∧
    ∀ a ∈ ids, check a = .error () →
      a ∈ filter_games_with_drops check ids := by
  have hfil : filter_games_with_drops check ids
      = ids.filter (fun a =>
          match check a with
          | .ok b => b
          | .error _ => true) := by
    induction ids with
    | nil => rfl
    | cons a rest ih =>
      cases hc : check a with
      | ok b =>
        cases b <;>
          simp [filter_games_with_drops, hc, List.filter_cons, ih]
      | error e =>
        simp [filter_games_with_drops, hc, List.filter_cons, ih]
  refine ⟨hfil, ?_⟩
  intro a ha he
  rw [hfil, List.mem_filter]
  exact ⟨ha, by rw [he]⟩

/-- C4 witness: the check for id `1` raises, and `1` is kept. -/
theorem filter_games_with_drops_keeps_failed_witness :
    (1 : GameId) ∈ filter_games_with_drops (fun _ => .error ()) [1] :=
  (filter_games_with_drops_keeps_failed (fun _ => .error ()) [1]).2
    1 (by decide) rfl

/-- The getter only returns values stored in the dictionary. -/
theorem dict_get_nonneg (d : List (Int × Int))
    (h : ∀ p ∈ d, 0 ≤ p.2) (a r : Int) (hget : dict_get d a = some r) :
    0 ≤ r := by
  unfold dict_get at hget
  obtain ⟨p, hp, hr⟩ := Option.map_eq_some'.mp hget
  exact hr ▸ h p (List.mem_of_find?_eq_some hp)

/-- C5: on a dictionary of (nonnegative) remaining counts, the badge filter
returns exactly the input ids whose count is absent or positive — order and
duplicates preserved — and equivalently drops exactly the ids whose count
is exactly `0`. -/
theorem filter_games_with_remaining_cards_spec (d : List (Int × Int))
    (h : ∀ p ∈ d, 0 ≤ p.2) (ids : List GameId) :
    filter_games_with_remaining_cards d ids
      = ids.filter (fun a =>
          decide (dict_get d a = none ∨ 0 < (dict_get d a).getD 0)) ∧
    filter_games_with_remaining_cards d ids
      = ids.filter (fun a => decide (dict_get d a ≠ some 0)) := by
  constructor
  · induction ids with
    | nil => rfl
    | cons a rest ih =>
      cases hd : dict_get d a with
      | none =>
        simp [filter_games_with_remaining_cards, hd, List.filter_cons, ih]
      | some r =>
        by_cases hr : 0 < r
        · simp [filter_games_with_remaining_cards, hd, List.filter_cons,
            ih, hr]
        · simp [filter_games_with_remaining_cards, hd, List.filter_cons,
            ih, hr]
  · induction ids with
    | nil => rfl
    | cons a rest ih =>
      cases hd : dict_get d a with
      | none =>
        simp [filter_games_with_remaining_cards, hd, List.filter_cons, ih]
      | some r =>
        by_cases hr : 0 < r
        · have hne : r ≠ 0 := by omega
          simp [filter_games_with_remaining_cards, hd, List.filter_cons,
            ih, hr, hne]
        · have hr0 : r = 0 :=
            le_antisymm (not_lt.mp hr) (dict_get_nonneg d h a r hd)
          subst hr0
          simp [filter_games_with_remaining_cards, hd, List.filter_cons, ih]

/-- C5 witness: the badge dictionary `{300 ↦ 0, 220 ↦ 3}` applied to
`[300, 220, 111]` keeps exactly the ids not mapped to `0`. -/
theorem filter_games_with_remaining_cards_spec_witness :
    filter_games_with_remaining_cards
        [((300 : Int), (0 : Int)), ((220 : Int), (3 : Int))]
        [300, 220, 111]
      = List.filter
          (fun a =>
            decide (dict_get
              [((300 : Int), (0 : Int)), ((220 : Int), (3 : Int))] a
                ≠ some 0))
          [300, 220, 111] :=
  (filter_games_with_remaining_cards_spec
    [((300 : Int), (0 : Int)), ((220 : Int), (3 : Int))]
    (by decide) [300, 220, 111]).2

/-- C6 counterexample: a badge for game `555` that is present but carries
no `cards_remaining` key at all defaults to `0`, so `555` is dropped by
`filter_games_with_remaining_cards` — it does not pass as the claim
states. -/
theorem fetch_missing_remaining_cex :
    filter_games_with_remaining_cards
        (fetch_cards_remaining
          [{ appid := some (.vint 555), border_color := none,
             cards_remaining := none }]) [555] = [] ∧
    (555 : GameId) ∉ filter_games_with_remaining_cards
        (fetch_cards_remaining
          [{ appid := some (.vint 555), border_color := none,
             cards_remaining := none }]) [555] := by
  decide

/-- C6 (amended): a badge whose `cards_remaining` value is present but not
parseable as an int is skipped, so the game stays unknown and passes the
filter; a badge whose `cards_remaining` key is absent defaults to `0`, so
the game is dropped. -/
theorem fetch_remaining_unparseable_vs_missing (v : PyVal)
    (hv : py_to_int v = none) :
    filter_games_with_remaining_cards
        (fetch_cards_remaining
          [{ appid := some (.vint 555), border_color := none,
             cards_remaining := some v }]) [555] = [555] ∧
    filter_games_with_remaining_cards
        (fetch_cards_remaining
          [{ appid := some (.vint 555), border_color := none,
             cards_remaining := none }]) [555] = [] := by
  constructor
  · have hentry : badge_entry
        { appid := some (.vint 555), border_color := none,
          cards_remaining := some v } = none := by
      simp [badge_entry, py_truthy, py_ne_zero, hv,
        show py_to_int (.vint 555) = some 555 from rfl]
    simp [fetch_cards_remaining, fetch_step, hentry,
      filter_games_with_remaining_cards, dict_get]
  · decide

/-- C6 (amended) witness: `cards_remaining = "unknown"` does not parse, so
`555` passes; a missing `cards_remaining` key drops `555`. -/
theorem fetch_remaining_unparseable_vs_missing_witness :
    filter_games_with_remaining_cards
        (fetch_cards_remaining
          [{ appid := some (.vint 555), border_color := none,
             cards_remaining := some (.vstr "unknown") }]) [555]
      = [555] :=
  (fetch_remaining_unparseable_vs_missing (.vstr "unknown") (by decide)).1

/-- A successful badge entry pins down the parsed app id and a zero-ish
border color. -/
theorem badge_entry_some (b : Badge) (kv : Int × Int)
    (hb : badge_entry b = some kv) :
    py_to_int (b.appid.getD .vnone) = some kv.1 ∧
    py_ne_zero (b.border_color.getD (.vint 0)) = false := by
  unfold badge_entry at hb
  dsimp only at hb
  split at hb
  · exact absurd hb (by simp)
  · cases hp : py_to_int (b.appid.getD .vnone) with
    | none => rw [hp] at hb; exact absurd hb (by simp)
    | some k =>
      rw [hp] at hb
      dsimp only at hb
      split at hb
      · exact absurd hb (by simp)
      · next hborder =>
        cases hr : py_to_int (b.cards_remaining.getD (.vint 0)) with
        | none => rw [hr] at hb; exact absurd hb (by simp)
        | some r =>
          rw [hr] at hb
          dsimp only at hb
          have hkv : kv = (k, r) := by
            cases hb; rfl
          subst hkv
          exact ⟨rfl, Bool.eq_false_iff.mpr hborder⟩

/-- Every pair of an updated dictionary is the written pair or an original
one. -/
theorem mem_dict_set (d : List (Int × Int)) (k v : Int)
    (q : Int × Int) (hq : q ∈ dict_set d k v) : q.1 = k ∨ q ∈ d := by
  unfold dict_set at hq
  split at hq
  · obtain ⟨p, hp, hfp⟩ := List.mem_map.mp hq
    by_cases hk : (p.1 == k) = true
    · rw [if_pos hk] at hfp
      exact Or.inl (by rw [← hfp])
    · rw [if_neg hk] at hfp
      exact Or.inr (hfp ▸ hp)
  · rcases List.mem_append.mp hq with hq | hq
    · exact Or.inr hq
    · simp at hq
      exact Or.inl (by rw [hq])

/-- Folding the badge loop never introduces a key that no badge entry
produces. -/
theorem fetch_keys_ne (g : GameId) (badges : List Badge) :
    ∀ d : List (Int × Int), (∀ q ∈ d, q.1 ≠ g) →
    (∀ b ∈ badges, ∀ kv, badge_entry b = some kv → kv.1 ≠ g) →
    ∀ q ∈ badges.foldl fetch_step d, q.1 ≠ g := by
  induction badges with
  | nil => intro d hd _ q hq; exact hd q hq
  | cons b rest ih =>
    intro d hd hb q hq
    rw [List.foldl_cons] at hq
    refine ih (fetch_step d b) ?_ (fun b' hb' => hb b' (by simp [hb'])) q hq
    intro q' hq'
    unfold fetch_step at hq'
    cases hbe : badge_entry b with
    | none => rw [hbe] at hq'; exact hd q' hq'
    | some kv =>
      rw [hbe] at hq'
      rcases mem_dict_set d kv.1 kv.2 q' hq' with hk | hk
      · exact hk ▸ hb b (by simp) kv hbe
      · exact hd q' hk

/-- An id with no dictionary entry survives the badge filter. -/
theorem mem_filter_of_dict_get_none (d : List (Int × Int)) (g : GameId)
    (hget : dict_get d g = none) (ids : List GameId) (hg : g ∈ ids) :
    g ∈ filter_games_with_remaining_cards d ids := by
  induction ids with
  | nil => cases hg
  | cons a rest ih =>
    rcases List.mem_cons.mp hg with rfl | hg'
    · rw [filter_games_with_remaining_cards, hget]
      exact List.mem_cons_self _ _
    · rw [filter_games_with_remaining_cards]
      cases dict_get d a with
      | none => exact List.mem_cons_of_mem _ (ih hg')
      | some r =>
        show g ∈ if r > 0 then
            a :: filter_games_with_remaining_cards d rest
          else filter_games_with_remaining_cards d rest
        by_cases hr : r > 0
        · rw [if_pos hr]; exact List.mem_cons_of_mem _ (ih hg')
        · rw [if_neg hr]; exact ih hg'

/-- C10: when every badge whose `appid` parses to `g` carries a non-zero
`border_color`, the fetched dictionary has no entry for `g`, so `g` is
treated as unknown and passes `filter_games_with_remaining_cards` — even if
such a badge reports `cards_remaining = 0`. -/
theorem border_nonzero_badges_pass (badges : List Badge) (g : GameId)
    (ids : List GameId)
    (h : ∀ b ∈ badges, py_to_int (b.appid.getD .vnone) = some g →
      py_ne_zero (b.border_color.getD (.vint 0)) = true)
    (hg : g ∈ ids) :
    dict_get (fetch_cards_remaining badges) g = none ∧
    g ∈ filter_games_with_remaining_cards
        (fetch_cards_remaining badges) ids := by
  have hkeys : ∀ q ∈ fetch_cards_remaining badges, q.1 ≠ g := by
    refine fetch_keys_ne g badges [] (by simp) ?_
    intro b hb kv hkv hk
    have hsome := badge_entry_some b kv hkv
    rw [hk] at hsome
    rw [h b hb hsome.1] at hsome
    exact absurd hsome.2 (by simp)
  have hget : dict_get (fetch_cards_remaining badges) g = none := by
    unfold dict_get
    rw [List.find?_eq_none.mpr ?_]
    · rfl
    · intro p hp
      simpa using hkeys p hp
  exact ⟨hget,
    mem_filter_of_dict_get_none (fetch_cards_remaining badges) g hget
      ids hg⟩

/-- C7 counterexample: with `max_checks = 1` and two ids whose checks both
raise `TradingCardDetectionError`, the loop performs two resolution
attempts — an attempt that raised is not counted against `max_checks`, so
the total exceeds the cap. -/
theorem tc_attempts_exceed_max_checks_cex :
    tc_attempts (fun _ => .detErr) [1, 2] 30 (some 1) = 2 ∧
    ¬ tc_attempts (fun _ => .detErr) [1, 2] 30 (some 1) ≤ 1 := by
  decide

/-- Auxiliary count bound: from a loop state with `checks < k`, at most
`k - checks` further non-raising attempts occur. -/
theorem tc_loop_success_bound (check : GameId → TCOut) (maxGames k : Nat) :
    ∀ (ids acc : List GameId) (checks att satt : Nat), checks < k →
    (tc_loop check maxGames (some k) ids acc checks att satt).2.2
      ≤ satt + (k - checks) := by
  intro ids
  induction ids with
  | nil =>
    intro acc checks att satt h
    simp [tc_loop]
  | cons g rest ih =>
    intro acc checks att satt h
    cases hc : check g with
    | interrupt => simp [tc_loop, hc]
    | detErr =>
      simp only [tc_loop, hc]
      exact ih acc checks (att + 1) satt h
    | timeoutErr =>
      simp only [tc_loop, hc]
      exact ih acc checks (att + 1) satt h
    | otherErr =>
      simp only [tc_loop, hc]
      exact ih acc checks (att + 1) satt h
    | yes =>
      simp only [tc_loop, hc]
      by_cases hmg : maxGames ≤ (acc ++ [g]).length
      · rw [if_pos hmg]
        show satt + 1 ≤ satt + (k - checks)
        omega
      · rw [if_neg hmg]
        by_cases hkc : k ≤ checks + 1
        · rw [if_pos hkc]
          show satt + 1 ≤ satt + (k - checks)
          omega
        · rw [if_neg hkc]
          have := ih (acc ++ [g]) (checks + 1) (att + 1) (satt + 1)
            (by omega)
          omega
    | no =>
      simp only [tc_loop, hc]
      by_cases hkc : k ≤ checks + 1
      · rw [if_pos hkc]
        show satt + 1 ≤ satt + (k - checks)
        omega
      · rw [if_neg hkc]
        have := ih acc (checks + 1) (att + 1) (satt + 1) (by omega)
        omega

/-- C7 (amended): one call performs at most `max_checks` resolution
attempts that complete without raising (for `max_checks ≥ 1`, as the
settings enforce); attempts that end in an exception are not counted
toward the cap, so the total attempt count may exceed it. -/
theorem tc_success_attempts_le_max_checks (check : GameId → TCOut)
    (game_ids : List GameId) (maxGames k : Nat) (hk : 1 ≤ k) :
    tc_success_attempts check game_ids maxGames (some k) ≤ k := by
  have := tc_loop_success_bound check maxGames k game_ids [] 0 0 0
    (by omega)
  unfold tc_success_attempts
  omega

/-- C7 (amended) witness: the two-error scan above makes zero non-raising
attempts, within the cap of `1`. -/
theorem tc_success_attempts_le_max_checks_witness :
    tc_success_attempts (fun _ => .detErr) [1, 2] 30 (some 1) ≤ 1 :=
  tc_success_attempts_le_max_checks (fun _ => .detErr) [1, 2] 30 1
    (by decide)

/-- Dict lookup steps over a cons cell. -/
theorem cache_get_cons (x : Int × Bool × ℚ) (l : CacheStore) (k : Int) :
    cache_get (x :: l) k
      = if (x.1 == k) = true then some x.2 else cache_get l k := by
  unfold cache_get
  by_cases h : (x.1 == k) = true
  · have hf : List.find? (fun p => p.1 == k) (x :: l) = some x :=
      List.find?_cons_of_pos l h
    rw [hf, if_pos h]
    rfl
  · have hf : List.find? (fun p => p.1 == k) (x :: l)
        = List.find? (fun p => p.1 == k) l :=
      List.find?_cons_of_neg l (by simpa using h)
    rw [hf, if_neg h]

/-- Dict lookup misses when no entry carries the key. -/
theorem cache_get_eq_none (l : CacheStore) (k : Int)
    (h : ∀ x ∈ l, x.1 ≠ k) : cache_get l k = none := by
  unfold cache_get
  rw [List.find?_eq_none.mpr]
  · rfl
  · intro x hx
    simpa using h x hx

/-- Lookup through a timestamp filter on a unique-key store. -/
theorem cache_get_filter (q : ℚ → Bool) (store : CacheStore) :
    (store.map Prod.fst).Nodup → ∀ k : Int,
    cache_get (store.filter (fun e => q e.2.2)) k
      = match cache_get store k with
        | some v => if q v.2 then some v else none
        | none => none := by
  induction store with
  | nil => intro _ k; rfl
  | cons e rest ih =>
    intro hnd k
    have hnd' : (rest.map Prod.fst).Nodup :=
      (List.nodup_cons.mp (by simpa using hnd)).2
    have hke : e.1 ∉ rest.map Prod.fst :=
      (List.nodup_cons.mp (by simpa using hnd)).1
    by_cases hq : q e.2.2 = true
    · have hfc : (e :: rest).filter (fun x => q x.2.2)
          = e :: rest.filter (fun x => q x.2.2) :=
        List.filter_cons_of_pos hq
      rw [hfc, cache_get_cons, cache_get_cons]
      by_cases hk : (e.1 == k) = true
      · rw [if_pos hk, if_pos hk]
        show some e.2
          = if q e.2.2 = true then some e.2 else none
        rw [if_pos hq]
      · rw [if_neg hk, if_neg hk]
        exact ih hnd' k
    · have hfc : (e :: rest).filter (fun x => q x.2.2)
          = rest.filter (fun x => q x.2.2) :=
        List.filter_cons_of_neg (by simpa using hq)
      rw [hfc, cache_get_cons]
      by_cases hk : (e.1 == k) = true
      · rw [if_pos hk]
        have hkk : e.1 = k := by simpa using hk
        have hnone : cache_get (rest.filter (fun x => q x.2.2)) k
            = none := by
          apply cache_get_eq_none
          intro x hx hxk
          exact hke (hkk ▸ hxk ▸ List.mem_map_of_mem Prod.fst
            (List.mem_of_mem_filter hx))
        rw [hnone]
        show (none : Option (Bool × ℚ))
          = if q e.2.2 = true then some e.2 else none
        rw [if_neg hq]
      · rw [if_neg hk]
        exact ih hnd' k

/-- C8: saving a unique-key record store and loading it back at the same
path returns exactly the records with `now - observed_at ≤
ttl_days * 86400`, each with its remembered boolean; expired entries are
absent; a missing or unparseable file loads as the empty mapping. -/
theorem cache_round_trip (store : CacheStore)
    (hnodup : (store.map Prod.fst).Nodup) (now : ℚ) (ttl_days : Nat) :
    (∀ k : Int,
      cache_get (load_cache (some (save_cache store)) now ttl_days) k
        = match cache_get store k with
          | some v =>
              if (now - v.2 ≤ ((ttl_days * 86400 : Nat) : ℚ)) then some v
              else none
          | none => none) ∧
    load_cache none now ttl_days = [] ∧
    load_cache (some .bad) now ttl_days = [] := by
  refine ⟨?_, rfl, rfl⟩
  intro k
  have h := cache_get_filter
    (fun ts => decide (now - ts ≤ ((ttl_days * 86400 : Nat) : ℚ)))
    store hnodup k
  unfold load_cache save_cache
  rw [h]
  cases cache_get store k with
  | none => rfl
  | some v => simp

/-- C8 witness: two remembered records; with `now = 100000` and a one-day
TTL, the record observed at `100000` survives the round trip and the one
observed at `1000` (99000 seconds earlier) is expired. -/
theorem cache_round_trip_witness :
    cache_get (load_cache (some (save_cache
        (remember (remember [] 1 true 100000) 2 false 1000))) 100000 1) 1
      = some (true, 100000) ∧
    cache_get (load_cache (some (save_cache
        (remember (remember [] 1 true 100000) 2 false 1000))) 100000 1) 2
      = none := by
  have h := (cache_round_trip
    (remember (remember [] 1 true 100000) 2 false 1000)
    (by decide) 100000 1).1
  have hc1 : cache_get (remember (remember [] 1 true 100000) 2 false 1000)
      1 = some (true, 100000) := by
    norm_num [remember, cache_set, cache_get, List.find?]
  have hc2 : cache_get (remember (remember [] 1 true 100000) 2 false 1000)
      2 = some (false, 1000) := by
    norm_num [remember, cache_set, cache_get, List.find?,
      show ((1 : Int) == 2) = false from rfl]
  refine ⟨?_, ?_⟩
  · have h1 := h 1
    rw [hc1] at h1
    rw [h1]
    norm_num
  · have h2 := h 2
    rw [hc2] at h2
    rw [h2]
    norm_num

/-- C9: a bare 17-digit numeric reference resolves to the `/profiles/`
URL, a vanity name to the `/id/` URL, a 17-digit run embedded in
surrounding text is extracted and resolved via `/profiles/`, and a
reference that is empty after normalization fails with the validation
error — for every app id. -/
theorem build_gamecards_url_spec (a : Nat) :
    build_gamecards_url ("76561198000000000".data) a
      = .ok ("https://steamcommunity.com/profiles/76561198000000000/gamecards/".data
          ++ (Nat.repr a).data ++ ['/']) ∧
    build_gamecards_url ("mycustomid".data) a
      = .ok ("https://steamcommunity.com/id/mycustomid/gamecards/".data
          ++ (Nat.repr a).data ++ ['/']) ∧
    build_gamecards_url ("user 76561198000000000 xyz".data) a
      = .ok ("https://steamcommunity.com/profiles/76561198000000000/gamecards/".data
          ++ (Nat.repr a).data ++ ['/']) ∧
    build_gamecards_url (" /// ".data) a
      = .error ("Steam ID cannot be empty".data) := by
  refine ⟨?_, ?_, ?_, ?_⟩ <;> rfl

/-- C9 witness: the vanity reference at app id `440`. -/
theorem build_gamecards_url_spec_witness :
    build_gamecards_url ("mycustomid".data) 440
      = .ok ("https://steamcommunity.com/id/mycustomid/gamecards/".data
          ++ (Nat.repr 440).data ++ ['/']) :=
  (build_gamecards_url_spec 440).2.1

/-- C10 witness: game `555` has a single badge with `border_color = 1` and
`cards_remaining = 0`; it still passes the filter. -/
theorem border_nonzero_badges_pass_witness :
    (555 : GameId) ∈ filter_games_with_remaining_cards
        (fetch_cards_remaining
          [{ appid := some (.vint 555), border_color := some (.vint 1),
             cards_remaining := some (.vint 0) }]) [555] :=
  (border_nonzero_badges_pass
    [{ appid := some (.vint 555), border_color := some (.vint 1),
       cards_remaining := some (.vint 0) }] 555 [555]
    (by decide) (by decide)).2

end SteamIdler
